import Mathlib

/-!
Verification of the knapsack-dp repository (a Leptos web app visualising the
0/1 knapsack dynamic program).  The definitions below are a shallow embedding
of `src/knapsack.rs` and `src/mochila.rs`; machine integers (`usize`) are
modelled as `Nat`, since every operation the program performs on them is
guarded against underflow and no claim involves overflow.  Fallible parsing is
modelled with `Option`/`Except`, and the Leptos signal state of the
`KnapsackVisualizer` component is modelled as an explicit record `AppState`
transformed by pure functions `on_solve` / `on_step`.
-/

-- ═══ DP core: `knapsack_table` (src/knapsack.rs lines 7-24) ═══

/-- One row of the DP table.  Embeds the inner loop of `knapsack_table`
(lines 15-21): given the previous row `prev` (row `i-1`), the weight `w` and
benefit `b` of item `i`, produce row `i` with one entry per `c in 0..=capacity`:
`if w > c { prev[c] } else { max(prev[c], prev[c - w] + b) }`. -/
def knapsackRow (capacity : Nat) (prev : List Nat) (w b : Nat) : List Nat :=
  (List.range (capacity + 1)).map (fun c =>
    if w > c then prev.getD c 0
    else max (prev.getD c 0) (prev.getD (c - w) 0 + b))

/-- The outer loop of `knapsack_table` (lines 12-22): successive data rows,
each computed from the one before it, one per item. -/
def knapsackRows (capacity : Nat) (prev : List Nat) : List (Nat × Nat) → List (List Nat)
  | [] => []
  | item :: rest =>
    knapsackRow capacity prev item.1 item.2 ::
      knapsackRows capacity (knapsackRow capacity prev item.1 item.2) rest

/-- Embeds `knapsack_table` (src/knapsack.rs lines 7-24).  Row 0 is the
all-zero "no items" baseline (`vec![vec![0; capacity + 1]; n + 1]`); data rows
follow the recurrence.  The Rust function iterates `i in 1..=n` with
`n = weights.len()` reading `weights[i-1]` and `benefits[i-1]`; zipping the two
lists renders that indexing exactly on the valid instances every claim is
about, where the two lists have equal length. -/
def knapsack_table (capacity : Nat) (weights benefits : List Nat) : List (List Nat) :=
  List.replicate (capacity + 1) 0 ::
    knapsackRows capacity (List.replicate (capacity + 1) 0) (weights.zip benefits)

/-- `cell t i c` is the Rust read `t[i][c]`, total via defaults (every claim's
theorem proves the accesses made by the program are in bounds). -/
def cell (t : List (List Nat)) (i c : Nat) : Nat :=
  (t.getD i []).getD c 0

-- ═══ Specification side: brute-force 0/1 knapsack optimum ═══

/-- All subsets of a list (as sublists, order preserved).  Specification-side
definition used to state what "the maximum total benefit of any subset" means;
it is not part of the program. -/
def subsets {α : Type} : List α → List (List α)
  | [] => [[]]
  | a :: l => subsets l ++ (subsets l).map (fun s => a :: s)

/-- Total weight of a selection of (weight, benefit) items. -/
def totalWeight (s : List (Nat × Nat)) : Nat := (s.map Prod.fst).sum

/-- Total benefit of a selection of (weight, benefit) items. -/
def totalBenefit (s : List (Nat × Nat)) : Nat := (s.map Prod.snd).sum

/-- Maximum of a list of naturals (0 for the empty list). -/
def maxList (l : List Nat) : Nat := l.foldr max 0

/-- Brute-force optimum: the maximum total benefit over all subsets of
`items` whose total weight is at most `cap`. -/
def bruteForce (items : List (Nat × Nat)) (cap : Nat) : Nat :=
  maxList (((subsets items).filter (fun s => totalWeight s ≤ cap)).map totalBenefit)

-- ═══ Second solver: `Mochila::solve` (src/mochila.rs lines 10-46) ═══

/-- One row of the `solucion` grid of `Mochila::solve`: row `i` has `m`
entries, `w in 0..m`, with value `0` when `i == 0 || w == 0`, otherwise the
shifted recurrence reading `peso[i]` and `beneficio[i]`. -/
def mochilaRow (m : Nat) (prev : List Nat) (i : Nat) (peso beneficio : List Nat) : List Nat :=
  (List.range m).map (fun w =>
    if i = 0 ∨ w = 0 then 0
    else if peso.getD i 0 > w then prev.getD w 0
    else max (prev.getD w 0) (beneficio.getD i 0 + prev.getD (w - peso.getD i 0) 0))

/-- First `k` rows of the `solucion` grid (rows `0..k`). -/
def mochilaTable (m : Nat) (peso beneficio : List Nat) : Nat → List (List Nat)
  | 0 => []
  | k + 1 =>
    mochilaTable m peso beneficio k ++
      [mochilaRow m ((mochilaTable m peso beneficio k).getD (k - 1) []) k peso beneficio]

/-- Embeds the table computed by `Mochila::solve` (src/mochila.rs lines
10-35): an `n × m` grid, `n = beneficio.len()`, `m = self.m` (the printing at
lines 36-45 is I/O and not modelled). -/
def mochilaSolve (m : Nat) (peso beneficio : List Nat) : List (List Nat) :=
  mochilaTable m peso beneficio beneficio.length

-- ═══ Parsing: `parse_list` and `usize` parsing (src/knapsack.rs lines 28-36) ═══

/-- Rust `str::trim` on the character list of an (ASCII) string: drop
whitespace from both ends. -/
def trimChars (cs : List Char) : List Char :=
  ((cs.dropWhile Char.isWhitespace).reverse.dropWhile Char.isWhitespace).reverse

/-- Rust `str::split(',')`: split a character list at every comma; always
yields at least one (possibly empty) token. -/
def splitComma : List Char → List (List Char)
  | [] => [[]]
  | c :: rest =>
    if c = Char.ofNat 44 then [] :: splitComma rest
    else (c :: (splitComma rest).headD []) :: (splitComma rest).tail

/-- Decimal value of a digit list (most significant first). -/
def digitsToNat (cs : List Char) : Nat :=
  cs.foldl (fun acc c => acc * 10 + (c.toNat - 48)) 0

/-- Rust `usize::from_str` on a character list: an optional leading `+`
followed by one or more ASCII digits; anything else fails.  (Overflow is not
modelled; no claim involves values near `usize::MAX`.) -/
def parseUsizeChars (cs : List Char) : Option Nat :=
  let digits := if cs.headD (Char.ofNat 0) = Char.ofNat 43 then cs.tail else cs
  if digits.isEmpty then none
  else if digits.all Char.isDigit then some (digitsToNat digits) else none

/-- The exact error text `format!("'{}' is not a valid positive integer", t)`
produced by `parse_list` for an unparsable (already trimmed) token. -/
def tokenError (t : List Char) : String :=
  "\x27" ++ String.mk t ++ "\x27 is not a valid positive integer"

/-- Embeds `parse_list` (src/knapsack.rs lines 28-36): split on `,`, trim each
token, parse as `usize`; the first failing token aborts with its error
message, exactly as `collect::<Result<Vec<_>, _>>` does. -/
def parse_list (s : String) : Except String (List Nat) :=
  (splitComma s.data).mapM (fun tok =>
    match parseUsizeChars (trimChars tok) with
    | some v => Except.ok v
    | none => Except.error (tokenError (trimChars tok)))

-- ═══ Component state (the signals of `KnapsackVisualizer`, lines 41-59) ═══

/-- The reactive state of the `KnapsackVisualizer` component: one field per
Leptos signal.  `revealed = none` means "all revealed" (Solve was pressed);
`revealed = some r` means `r` data cells are revealed; the initial state has
`dpTable = none` (nothing computed yet, `NotStarted`). -/
structure AppState where
  capacityInput : String
  weightsInput : String
  benefitsInput : String
  errorMsg : Option String
  dpTable : Option (List (List Nat))
  itemWeights : List Nat
  itemBenefits : List Nat
  capacity : Nat
  revealed : Option Nat
deriving Repr, DecidableEq

/-- The initial signal values (lines 43-59). -/
def initState : AppState :=
  { capacityInput := "6", weightsInput := "2, 3, 4", benefitsInput := "3, 4, 5"
    errorMsg := none, dpTable := none, itemWeights := [], itemBenefits := []
    capacity := 0, revealed := some 0 }

/-- `total_cells` (lines 64-69): `(t.len().saturating_sub(1)) * t[0].len()`
when a table exists, else 0.  `Nat` subtraction is saturating, like
`saturating_sub`. -/
def total_cells (s : AppState) : Nat :=
  match s.dpTable with
  | some t => (t.length - 1) * (t.getD 0 []).length
  | none => 0

/-- The input-validation pipeline shared verbatim by `on_solve` (lines 75-114)
and `on_step` (lines 130-166): parse the trimmed capacity as a positive
`usize`, parse the weights list (must be non-empty), parse the benefits list,
and require equal lengths; each failure produces the exact error string of the
source. -/
def validateInputs (capS wS bS : String) : Except String (Nat × List Nat × List Nat) :=
  match parseUsizeChars (trimChars capS.data) with
  | some v =>
    if v > 0 then
      match parse_list wS with
      | Except.ok ws =>
        if ws.isEmpty then Except.error "Enter at least one weight."
        else
          match parse_list bS with
          | Except.ok bs =>
            if ws.length = bs.length then Except.ok (v, ws, bs)
            else Except.error ("Number of weights (" ++ toString ws.length ++
              ") must equal number of benefits (" ++ toString bs.length ++ ").")
          | Except.error e => Except.error ("Benefits: " ++ e)
      | Except.error e => Except.error ("Weights: " ++ e)
    else Except.error "Capacity (m) must be a positive integer."
  | none => Except.error "Capacity (m) must be a positive integer."

/-- Embeds `on_solve` (lines 72-122): clear the error, validate; on failure
set the error message and change nothing else; on success store capacity,
weights, benefits and the freshly computed table, and set `revealed` to `none`
("reveal everything immediately"). -/
def on_solve (s : AppState) : AppState :=
  match validateInputs s.capacityInput s.weightsInput s.benefitsInput with
  | Except.error e => { s with errorMsg := some e }
  | Except.ok (cap, ws, bs) =>
    { s with errorMsg := none, capacity := cap, itemWeights := ws, itemBenefits := bs
             dpTable := some (knapsack_table cap ws bs), revealed := none }

/-- Embeds `on_step` (lines 125-192).  With no table yet: validate, compute,
reveal the first cell.  With a table: advance the reveal counter by one, roll
over to `none` ("all revealed") past `total_cells`, and restart at 1 from
`none`. -/
def on_step (s : AppState) : AppState :=
  match s.dpTable with
  | none =>
    match validateInputs s.capacityInput s.weightsInput s.benefitsInput with
    | Except.error e => { s with errorMsg := some e }
    | Except.ok (cap, ws, bs) =>
      { s with errorMsg := none, capacity := cap, itemWeights := ws, itemBenefits := bs
               dpTable := some (knapsack_table cap ws bs), revealed := some 1 }
  | some _ =>
    match s.revealed with
    | none => { s with errorMsg := none, revealed := some 1 }
    | some r =>
      if r + 1 > total_cells s then { s with errorMsg := none, revealed := none }
      else { s with errorMsg := none, revealed := some (r + 1) }

-- ═══ Cell visibility and classification (lines 196-346) ═══

/-- Embeds `is_visible` (lines 196-205): with `revealed = none` everything is
visible; with `revealed = some r` the data cell at 1-based row `row`, column
`col` is visible iff its row-major linear index `(row-1)*n_cols + col` is
below `r`. -/
def is_visible (revealed : Option Nat) (row col n_cols : Nat) : Bool :=
  match revealed with
  | none => true
  | some r => (row - 1) * n_cols + col < r

/-- Embeds `active_linear` (lines 276-277): `revealed.and_then(|r| r.checked_sub(1))`. -/
def active_linear (revealed : Option Nat) : Option Nat :=
  revealed.bind (fun r => if 1 ≤ r then some (r - 1) else none)

/-- CSS classification of a data cell (the `cls` chain at lines 331-339),
plus `base` for the always-shown row-0 cells (line 300). -/
inductive CellClass where
  | base
  | hidden
  | active
  | took
  | normal
deriving Repr, DecidableEq

/-- Embeds the `took_item` condition (lines 326-329):
`visible && wi <= c && val == table[i-1][c - wi] + bi && val > table[i-1][c]`
with `wi = ws[i-1]`, `bi = bs[i-1]`, `val = table[i][c]`. -/
def took_item (table : List (List Nat)) (ws bs : List Nat) (revealed : Option Nat)
    (n_cols i c : Nat) : Bool :=
  is_visible revealed i c n_cols
    && decide (ws.getD (i - 1) 0 ≤ c)
    && decide (cell table i c = cell table (i - 1) (c - ws.getD (i - 1) 0) + bs.getD (i - 1) 0)
    && decide (cell table (i - 1) c < cell table i c)

/-- Embeds the classification chain (lines 331-339) for a data cell in rows
`1..=n`: hidden if not visible, else active if its linear index is the last
revealed one, else took, else normal. -/
def classifyCell (table : List (List Nat)) (ws bs : List Nat) (revealed : Option Nat)
    (n_cols i c : Nat) : CellClass :=
  if ¬ is_visible revealed i c n_cols then CellClass.hidden
  else if active_linear revealed = some ((i - 1) * n_cols + c) then CellClass.active
  else if took_item table ws bs revealed n_cols i c then CellClass.took
  else CellClass.normal

/-- Classification of a row-0 cell (line 300): always `cell cell-base`,
independent of the reveal state. -/
def classifyRow0Cell : CellClass := CellClass.base

/-- Rendered text of a row-0 cell (line 300): the literal `"0"`, always. -/
def renderRow0Cell : String := "0"

/-- Rendered text of a data cell (line 343): the value if visible, the empty
placeholder otherwise. -/
def renderCell (table : List (List Nat)) (revealed : Option Nat) (n_cols i c : Nat) : String :=
  if is_visible revealed i c n_cols then toString (cell table i c) else ""

-- ═══ Progress bar (lines 354-371) ═══

/-- `done` of the progress bar (line 356): `revealed.get().unwrap_or(total)`. -/
def progressDone (s : AppState) : Nat :=
  (s.revealed).getD (total_cells s)

/-- `pct` of the progress bar (line 357): integer (floor) percentage, 0 when
there are no data cells. -/
def progressPct (s : AppState) : Nat :=
  if total_cells s > 0 then progressDone s * 100 / total_cells s else 0

/-- `label` of the progress bar (lines 358-364). -/
def progressLabel (s : AppState) : String :=
  if total_cells s = 0 then ""
  else if progressDone s ≥ total_cells s then "✓ Complete"
  else toString (progressDone s) ++ " / " ++ toString (total_cells s) ++ " cells"


-- ═══ Lemmas about the brute-force optimum ═══

/-- `maxList` distributes over append. -/
theorem maxList_append (l₁ l₂ : List Nat) :
    maxList (l₁ ++ l₂) = max (maxList l₁) (maxList l₂) := by
  induction l₁ with
  | nil => simp [maxList]
  | cons x t ih =>
    simp only [List.cons_append, maxList, List.foldr_cons] at *
    omega

/-- `maxList` commutes with adding a constant, on non-empty lists. -/
theorem maxList_map_add (b : Nat) (l : List Nat) (h : l ≠ []) :
    maxList (l.map (fun v => b + v)) = b + maxList l := by
  induction l with
  | nil => exact absurd rfl h
  | cons x t ih =>
    cases t with
    | nil => simp [maxList]
    | cons y t' =>
      have ih' := ih (by simp)
      simp only [List.map_cons, maxList, List.foldr_cons] at *
      omega

/-- The empty selection is always among the enumerated subsets. -/
theorem nil_mem_subsets {α : Type} (l : List α) : [] ∈ subsets l := by
  induction l with
  | nil => simp [subsets]
  | cons a t ih => simp only [subsets, List.mem_append]; exact Or.inl ih

theorem totalWeight_nil : totalWeight [] = 0 := rfl

theorem totalBenefit_nil : totalBenefit [] = 0 := rfl

theorem totalWeight_cons (a : Nat × Nat) (s : List (Nat × Nat)) :
    totalWeight (a :: s) = a.1 + totalWeight s := by simp [totalWeight]

theorem totalBenefit_cons (a : Nat × Nat) (s : List (Nat × Nat)) :
    totalBenefit (a :: s) = a.2 + totalBenefit s := by simp [totalBenefit]

theorem bruteForce_nil (c : Nat) : bruteForce [] c = 0 := by
  simp [bruteForce, subsets, totalWeight, totalBenefit, maxList]

/-- The brute-force optimum satisfies the knapsack recurrence on a freshly
prepended item. -/
theorem bruteForce_cons (w b : Nat) (l : List (Nat × Nat)) (c : Nat) :
    bruteForce ((w, b) :: l) c =
      if w > c then bruteForce l c
      else max (bruteForce l c) (bruteForce l (c - w) + b) := by
  unfold bruteForce
  rw [show subsets ((w, b) :: l) = subsets l ++ (subsets l).map (fun s => (w, b) :: s) from rfl]
  rw [List.filter_append, List.filter_map, List.map_append, List.map_map, maxList_append]
  by_cases h : w > c
  · have hnil : (subsets l).filter
        ((fun s => decide (totalWeight s ≤ c)) ∘ (fun s => (w, b) :: s)) = [] := by
      rw [List.filter_eq_nil_iff]
      intro s _
      simp [Function.comp, totalWeight_cons]
      omega
    rw [hnil]
    simp [h, maxList]
  · have hpred : ((fun s => decide (totalWeight s ≤ c)) ∘ (fun s => (w, b) :: s)) =
        (fun s => decide (totalWeight s ≤ c - w)) := by
      funext s
      simp [Function.comp, totalWeight_cons]
      omega
    rw [hpred]
    have hmap : (totalBenefit ∘ fun s => (w, b) :: s) = (fun s => b + totalBenefit s) := by
      funext s
      simp [Function.comp, totalBenefit_cons]
    rw [hmap]
    have hne : ((subsets l).filter (fun s => decide (totalWeight s ≤ c - w))).map totalBenefit ≠ [] := by
      have : ([] : List (Nat × Nat)) ∈ (subsets l).filter (fun s => decide (totalWeight s ≤ c - w)) := by
        rw [List.mem_filter]
        exact ⟨nil_mem_subsets l, by simp [totalWeight_nil]⟩
      intro hcon
      rw [List.map_eq_nil_iff] at hcon
      simp [hcon] at this
    have : (subsets l).map (fun s => b + totalBenefit s) =
        ((subsets l).map totalBenefit).map (fun v => b + v) := by
      simp [List.map_map, Function.comp]
    rw [show ((subsets l).filter (fun s => decide (totalWeight s ≤ c - w))).map
          (fun s => b + totalBenefit s) =
        (((subsets l).filter (fun s => decide (totalWeight s ≤ c - w))).map totalBenefit).map
          (fun v => b + v) from by simp [List.map_map, Function.comp]]
    rw [maxList_map_add b _ hne]
    simp [h]
    omega

/-- The brute-force optimum satisfies the knapsack recurrence on an item
appended at the end of the list — the shape in which `knapsack_table` adds
items, one row at a time. -/
theorem bruteForce_concat (l : List (Nat × Nat)) (w b : Nat) :
    ∀ c, bruteForce (l ++ [(w, b)]) c =
      if w > c then bruteForce l c
      else max (bruteForce l c) (bruteForce l (c - w) + b) := by
  induction l with
  | nil =>
    intro c
    rw [List.nil_append, bruteForce_cons]
  | cons x t ih =>
    intro c
    obtain ⟨wx, bx⟩ := x
    rw [List.cons_append, bruteForce_cons, ih c, ih (c - wx),
      bruteForce_cons, bruteForce_cons]
    have e : c - w - wx = c - wx - w := by omega
    rw [e]
    split_ifs <;> omega

-- ═══ Lemmas about the DP table ═══

theorem knapsackRow_length (capacity : Nat) (prev : List Nat) (w b : Nat) :
    (knapsackRow capacity prev w b).length = capacity + 1 := by
  simp [knapsackRow]

/-- Reading entry `c ≤ capacity` of a freshly built row gives the recurrence. -/
theorem knapsackRow_getD (capacity : Nat) (prev : List Nat) (w b c : Nat)
    (hc : c ≤ capacity) :
    (knapsackRow capacity prev w b).getD c 0 =
      if w > c then prev.getD c 0
      else max (prev.getD c 0) (prev.getD (c - w) 0 + b) := by
  unfold knapsackRow
  rw [List.getD_eq_getElem?_getD, List.getElem?_map,
    List.getElem?_range (by omega : c < capacity + 1)]
  rfl

theorem knapsackRows_length (capacity : Nat) :
    ∀ (items : List (Nat × Nat)) (prev : List Nat),
      (knapsackRows capacity prev items).length = items.length := by
  intro items
  induction items with
  | nil => intro prev; simp [knapsackRows]
  | cons a rest ih => intro prev; simp [knapsackRows, ih]

theorem knapsackRows_row_length (capacity : Nat) :
    ∀ (items : List (Nat × Nat)) (prev row : List Nat),
      row ∈ knapsackRows capacity prev items → row.length = capacity + 1 := by
  intro items
  induction items with
  | nil => intro prev row h; simp [knapsackRows] at h
  | cons a rest ih =>
    intro prev row h
    simp only [knapsackRows, List.mem_cons] at h
    rcases h with h | h
    · rw [h, knapsackRow_length]
    · exact ih _ _ h

theorem getD_replicate_zero (n i : Nat) : (List.replicate n (0 : Nat)).getD i 0 = 0 := by
  by_cases h : i < n
  · rw [List.getD_eq_getElem?_getD, List.getElem?_replicate]
    simp [h]
  · rw [List.getD_eq_default _ _ (by simpa using Nat.le_of_not_lt h)]

/-- Main invariant of the row-by-row construction: if the previous row tabulates
the brute-force optimum of the already-processed prefix `pref`, then row `j` of
`knapsackRows` tabulates the optimum of `pref` extended by the first `j+1`
remaining items. -/
theorem knapsackRows_cell (capacity : Nat) (items : List (Nat × Nat)) :
    ∀ (prev : List Nat) (pref : List (Nat × Nat)),
      (∀ c, c ≤ capacity → prev.getD c 0 = bruteForce pref c) →
      ∀ j, j < items.length → ∀ c, c ≤ capacity →
        ((knapsackRows capacity prev items).getD j []).getD c 0 =
          bruteForce (pref ++ items.take (j + 1)) c := by
  induction items with
  | nil => intro prev pref _ j hj; simp at hj
  | cons a rest ih =>
    intro prev pref hprev j hj c hc
    have hrow : ∀ c, c ≤ capacity →
        (knapsackRow capacity prev a.1 a.2).getD c 0 = bruteForce (pref ++ [a]) c := by
      intro c hc
      rw [knapsackRow_getD capacity prev a.1 a.2 c hc,
        hprev c hc, hprev (c - a.1) (Nat.le_trans (Nat.sub_le c a.1) hc),
        ← bruteForce_concat pref a.1 a.2 c]
    cases j with
    | zero =>
      simpa [knapsackRows] using hrow c hc
    | succ j' =>
      have h2 := ih (knapsackRow capacity prev a.1 a.2) (pref ++ [a]) hrow j'
        (by simpa using Nat.lt_of_succ_lt_succ hj) c hc
      simp only [knapsackRows, List.getD_cons_succ] at *
      rw [h2, List.take_succ_cons, List.append_assoc]
      rfl

/-- Every cell of `knapsack_table` is the brute-force optimum of the
corresponding prefix of items. -/
theorem knapsack_cell_eq (m : Nat) (ws bs : List Nat) (i c : Nat)
    (hi : i ≤ (ws.zip bs).length) (hc : c ≤ m) :
    cell (knapsack_table m ws bs) i c = bruteForce ((ws.zip bs).take i) c := by
  cases i with
  | zero =>
    simp only [cell, knapsack_table, List.getD_cons_zero, List.take_zero, bruteForce_nil]
    exact getD_replicate_zero (m + 1) c
  | succ j =>
    have hbase : ∀ c, c ≤ m →
        (List.replicate (m + 1) (0 : Nat)).getD c 0 = bruteForce [] c := by
      intro c _
      rw [getD_replicate_zero, bruteForce_nil]
    have h := knapsackRows_cell m (ws.zip bs) (List.replicate (m + 1) 0) [] hbase
      j (by omega) c hc
    simpa [cell, knapsack_table] using h

/-- Every row of `knapsack_table` (baseline row included) has `m + 1` entries. -/
theorem knapsack_table_mem_length (m : Nat) (ws bs : List Nat) (row : List Nat)
    (h : row ∈ knapsack_table m ws bs) : row.length = m + 1 := by
  simp only [knapsack_table, List.mem_cons] at h
  rcases h with h | h
  · simp [h]
  · exact knapsackRows_row_length m _ _ _ h

/-- Reading row `i` of `knapsack_table` in bounds gives a row of `m + 1` entries. -/
theorem knapsack_table_row_len (m : Nat) (ws bs : List Nat) (i : Nat)
    (h : i < (knapsack_table m ws bs).length) :
    ((knapsack_table m ws bs).getD i []).length = m + 1 := by
  rw [List.getD_eq_getElem?_getD, List.getElem?_eq_getElem h]
  exact knapsack_table_mem_length m ws bs _ (List.getElem_mem h)

theorem knapsack_table_length (m : Nat) (ws bs : List Nat) (hlen : ws.length = bs.length) :
    (knapsack_table m ws bs).length = ws.length + 1 := by
  simp [knapsack_table, knapsackRows_length, List.length_zip, hlen]

-- ═══ Claim theorems ═══

/-- C1: for every valid instance (capacity `m > 0`, `n ≥ 0` items given as
equal-length weight and benefit lists), every entry `(i, w)` of
`knapsack_table m weights benefits` equals the maximum total benefit of any
subset of the first `i` items whose total weight is at most `w` — in
particular entry `(n, m)` is the brute-force 0/1 knapsack optimum. -/
theorem knapsack_table_correct (m : Nat) (ws bs : List Nat) (i c : Nat)
    (hm : 0 < m) (hlen : ws.length = bs.length) (hi : i ≤ ws.length) (hc : c ≤ m) :
    cell (knapsack_table m ws bs) i c = bruteForce ((ws.zip bs).take i) c := by
  apply knapsack_cell_eq
  · rw [List.length_zip]
    omega
  · exact hc

/-- Witness for C1 at the spec's concrete scenario (capacity 6, weights
[2,3,4], benefits [3,4,5]): the final cell is the brute-force optimum, whose
pinned literal value is 8. -/
theorem knapsack_table_correct_witness :
    cell (knapsack_table 6 [2, 3, 4] [3, 4, 5]) 3 6 =
      bruteForce ((([2, 3, 4] : List Nat).zip [3, 4, 5]).take 3) 6 ∧
    cell (knapsack_table 6 [2, 3, 4] [3, 4, 5]) 3 6 = 8 :=
  ⟨knapsack_table_correct 6 [2, 3, 4] [3, 4, 5] 3 6 (by decide) (by decide)
    (by decide) (by decide), by decide⟩

/-- C2: for every valid instance the table has exactly `n + 1` rows and
`m + 1` columns, row 0 is all zeros, and values are monotone non-decreasing
down the rows. -/
theorem knapsack_table_shape_monotone (m : Nat) (ws bs : List Nat)
    (hm : 0 < m) (hlen : ws.length = bs.length) :
    (knapsack_table m ws bs).length = ws.length + 1 ∧
    (∀ row ∈ knapsack_table m ws bs, row.length = m + 1) ∧
    (∀ c, c ≤ m → cell (knapsack_table m ws bs) 0 c = 0) ∧
    (∀ i c, 1 ≤ i → i ≤ ws.length → c ≤ m →
      cell (knapsack_table m ws bs) (i - 1) c ≤ cell (knapsack_table m ws bs) i c) := by
  refine ⟨knapsack_table_length m ws bs hlen, knapsack_table_mem_length m ws bs, ?_, ?_⟩
  · intro c _
    simp only [cell, knapsack_table, List.getD_cons_zero]
    exact getD_replicate_zero (m + 1) c
  · intro i c hi1 hin hc
    have hzlen : (ws.zip bs).length = ws.length := by
      rw [List.length_zip]
      omega
    rw [knapsack_cell_eq m ws bs (i - 1) c (by omega) hc,
      knapsack_cell_eq m ws bs i c (by omega) hc]
    obtain ⟨a, ha⟩ : ∃ a, (ws.zip bs)[i - 1]? = some a :=
      ⟨_, List.getElem?_eq_getElem (by omega)⟩
    have htake : (ws.zip bs).take i = (ws.zip bs).take (i - 1) ++ [a] := by
      have h := List.take_succ (l := ws.zip bs) (n := i - 1)
      rw [ha] at h
      rw [show i = i - 1 + 1 from by omega]
      simpa using h
    rw [htake]
    obtain ⟨wa, ba⟩ := a
    rw [bruteForce_concat]
    split_ifs <;> omega

/-- Witness for C2 at the concrete scenario. -/
theorem knapsack_table_shape_monotone_witness :
    (knapsack_table 6 [2, 3, 4] [3, 4, 5]).length = 4 ∧
    cell (knapsack_table 6 [2, 3, 4] [3, 4, 5]) 0 6 = 0 ∧
    cell (knapsack_table 6 [2, 3, 4] [3, 4, 5]) 2 6 ≤
      cell (knapsack_table 6 [2, 3, 4] [3, 4, 5]) 3 6 := by
  have h := knapsack_table_shape_monotone 6 [2, 3, 4] [3, 4, 5] (by decide) (by decide)
  exact ⟨h.1, h.2.2.1 6 (by decide), h.2.2.2 3 6 (by decide) (by decide) (by decide)⟩

/-- C10: the unused second solver `Mochila::solve` disagrees with
`knapsack_table` on the concrete instance capacity 6, weights [2,3,4],
benefits [3,4,5] — already its dimensions differ (3 × 6 versus 4 × 7). -/
theorem mochila_disagrees :
    mochilaSolve 6 [2, 3, 4] [3, 4, 5] ≠ knapsack_table 6 [2, 3, 4] [3, 4, 5] ∧
    (mochilaSolve 6 [2, 3, 4] [3, 4, 5]).length = 3 ∧
    (knapsack_table 6 [2, 3, 4] [3, 4, 5]).length = 4 :=
  ⟨by decide, by decide, by decide⟩

/-- C9: on a validated instance, the computational core is total and every
index it uses is in bounds — the item reads `weights[i-1]`, `benefits[i-1]`,
the table reads `(i, c)`, `(i-1, c)` and (only under the guard
`weights[i-1] ≤ c`) `(i-1, c - weights[i-1])` all stay inside the grid, the
guarded subtraction cannot underflow, and the `checked_sub` in `active_linear`
yields `r - 1` exactly when `r ≥ 1`. -/
theorem core_total_safe (m : Nat) (ws bs : List Nat) (hlen : ws.length = bs.length) :
    (knapsack_table m ws bs).length = ws.length + 1 ∧
    (∀ i, i ≤ ws.length → ((knapsack_table m ws bs).getD i []).length = m + 1) ∧
    (∀ i c, 1 ≤ i → i ≤ ws.length → c ≤ m →
      i - 1 < ws.length ∧ i - 1 < bs.length ∧
      i < (knapsack_table m ws bs).length ∧
      i - 1 < (knapsack_table m ws bs).length ∧
      c < ((knapsack_table m ws bs).getD i []).length ∧
      c < ((knapsack_table m ws bs).getD (i - 1) []).length ∧
      (ws.getD (i - 1) 0 ≤ c →
        ws.getD (i - 1) 0 + (c - ws.getD (i - 1) 0) = c ∧
        c - ws.getD (i - 1) 0 < ((knapsack_table m ws bs).getD (i - 1) []).length)) ∧
    active_linear (some 0) = none ∧
    (∀ r, 1 ≤ r → active_linear (some r) = some (r - 1) ∧ (r - 1) + 1 = r) := by
  have hlength := knapsack_table_length m ws bs hlen
  refine ⟨hlength, ?_, ?_, ?_, ?_⟩
  · intro i hi
    exact knapsack_table_row_len m ws bs i (by omega)
  · intro i c hi1 hin hc
    have h1 := knapsack_table_row_len m ws bs i (by omega)
    have h2 := knapsack_table_row_len m ws bs (i - 1) (by omega)
    refine ⟨by omega, by omega, by omega, by omega, by omega, by omega, fun hw => ⟨by omega, by omega⟩⟩
  · simp [active_linear]
  · intro r hr
    refine ⟨?_, by omega⟩
    simp [active_linear, hr]

/-- Witness for C9 at the concrete scenario. -/
theorem core_total_safe_witness :
    (knapsack_table 6 [2, 3, 4] [3, 4, 5]).length = 4 ∧
    ((knapsack_table 6 [2, 3, 4] [3, 4, 5]).getD 2 []).length = 7 ∧
    active_linear (some 0) = none ∧ active_linear (some 5) = some 4 := by
  have h := core_total_safe 6 [2, 3, 4] [3, 4, 5] (by decide)
  refine ⟨h.1, ?_, h.2.2.2.1, ?_⟩
  · have := h.2.1 2 (by decide)
    simpa using this
  · have := (h.2.2.2.2 5 (by decide)).1
    simpa using this

/-- C3: `on_step` behaves as the Step state machine: from `NotStarted`
(no table) it validates, computes the table and reveals exactly one cell;
from `PartiallyRevealed r` it keeps the table and advances to `r + 1`, or to
all-revealed once `r + 1` exceeds `total_cells`; from all-revealed it restarts
at 1 over the same table; and `total_cells` is `n_items * (capacity + 1)`. -/
theorem on_step_state_machine (s : AppState) (cap : Nat) (ws bs : List Nat) :
    (s.dpTable = none →
      validateInputs s.capacityInput s.weightsInput s.benefitsInput =
        Except.ok (cap, ws, bs) →
      (on_step s).dpTable = some (knapsack_table cap ws bs) ∧
      (on_step s).revealed = some 1) ∧
    (∀ t r, s.dpTable = some t → s.revealed = some r →
      (on_step s).dpTable = some t ∧
      (r + 1 ≤ total_cells s → (on_step s).revealed = some (r + 1)) ∧
      (total_cells s < r + 1 → (on_step s).revealed = none)) ∧
    (∀ t, s.dpTable = some t → s.revealed = none →
      (on_step s).dpTable = some t ∧ (on_step s).revealed = some 1) ∧
    (s.dpTable = some (knapsack_table cap ws bs) → ws.length = bs.length →
      total_cells s = ws.length * (cap + 1)) := by
  refine ⟨?_, ?_, ?_, ?_⟩
  · intro h0 hv
    simp [on_step, h0, hv]
  · intro t r ht hr
    refine ⟨?_, ?_, ?_⟩
    · simp only [on_step, ht, hr]
      split_ifs <;> rfl
    · intro hle
      simp only [on_step, ht, hr]
      rw [if_neg (by omega)]
    · intro hgt
      simp only [on_step, ht, hr]
      rw [if_pos (by omega)]
  · intro t ht hr
    simp [on_step, ht, hr]
  · intro ht hlen
    simp only [total_cells, ht]
    rw [knapsack_table_length cap ws bs hlen,
      knapsack_table_row_len cap ws bs 0 (by rw [knapsack_table_length cap ws bs hlen]; omega)]
    simp

/-- Witness for C3: the first two Steps from the initial state reveal cells
1 then 2 of the freshly computed table. -/
theorem on_step_state_machine_witness :
    (on_step initState).dpTable = some (knapsack_table 6 [2, 3, 4] [3, 4, 5]) ∧
    (on_step initState).revealed = some 1 ∧
    (on_step (on_step initState)).dpTable = some (knapsack_table 6 [2, 3, 4] [3, 4, 5]) ∧
    (on_step (on_step initState)).revealed = some 2 := by
  have h1 := (on_step_state_machine initState 6 [2, 3, 4] [3, 4, 5]).1 rfl rfl
  have h2 := (on_step_state_machine (on_step initState) 6 [2, 3, 4] [3, 4, 5]).2.1
    (knapsack_table 6 [2, 3, 4] [3, 4, 5]) 1 h1.1 h1.2
  exact ⟨h1.1, h1.2, h2.1, h2.2.1 (by decide)⟩

/-- C4: given input that validates, `on_solve` unconditionally replaces the
instance and table with freshly computed ones and moves the reveal state to
all-revealed (`revealed = none`), regardless of the prior state. -/
theorem on_solve_always_all_revealed (s : AppState) (cap : Nat) (ws bs : List Nat)
    (h : validateInputs s.capacityInput s.weightsInput s.benefitsInput =
      Except.ok (cap, ws, bs)) :
    (on_solve s).revealed = none ∧
    (on_solve s).dpTable = some (knapsack_table cap ws bs) ∧
    (on_solve s).itemWeights = ws ∧
    (on_solve s).itemBenefits = bs ∧
    (on_solve s).capacity = cap ∧
    (on_solve s).errorMsg = none := by
  simp [on_solve, h]

/-- Witness for C4: pressing Solve mid-stepping (after two Steps) still lands
on all-revealed over a freshly computed table. -/
theorem on_solve_always_all_revealed_witness :
    (on_solve (on_step (on_step initState))).revealed = none ∧
    (on_solve (on_step (on_step initState))).dpTable =
      some (knapsack_table 6 [2, 3, 4] [3, 4, 5]) ∧
    (on_solve (on_step (on_step initState))).itemWeights = [2, 3, 4] ∧
    (on_solve (on_step (on_step initState))).itemBenefits = [3, 4, 5] ∧
    (on_solve (on_step (on_step initState))).capacity = 6 ∧
    (on_solve (on_step (on_step initState))).errorMsg = none :=
  on_solve_always_all_revealed (on_step (on_step initState)) 6 [2, 3, 4] [3, 4, 5] rfl

/-- C7: the progress triple — `total` is `n_items * (capacity + 1)`; `done`
is `total` when all-revealed, the reveal count when partially revealed, and 0
in the initial `NotStarted` configuration; `percent` is the floor of
`done * 100 / total` (0 when `total = 0`); the label is empty when
`total = 0`, the completion sentinel once `done ≥ total`, and a
"done / total cells" count string otherwise. -/
theorem progress_report (s : AppState) (cap count : Nat) (ws bs : List Nat) :
    (s.dpTable = some (knapsack_table cap ws bs) → ws.length = bs.length →
      total_cells s = ws.length * (cap + 1)) ∧
    (s.revealed = none → progressDone s = total_cells s) ∧
    (s.revealed = some count → progressDone s = count) ∧
    (s.dpTable = none → s.revealed = some 0 → progressDone s = 0 ∧ total_cells s = 0) ∧
    (0 < total_cells s → progressPct s = progressDone s * 100 / total_cells s) ∧
    (total_cells s = 0 → progressPct s = 0) ∧
    (total_cells s = 0 → progressLabel s = "") ∧
    (0 < total_cells s → total_cells s ≤ progressDone s → progressLabel s = "✓ Complete") ∧
    (0 < total_cells s → progressDone s < total_cells s →
      progressLabel s =
        toString (progressDone s) ++ " / " ++ toString (total_cells s) ++ " cells") := by
  refine ⟨?_, ?_, ?_, ?_, ?_, ?_, ?_, ?_, ?_⟩
  · intro ht hlen
    simp only [total_cells, ht]
    rw [knapsack_table_length cap ws bs hlen,
      knapsack_table_row_len cap ws bs 0 (by rw [knapsack_table_length cap ws bs hlen]; omega)]
    simp
  · intro h
    simp [progressDone, h]
  · intro h
    simp [progressDone, h]
  · intro ht hr
    simp [progressDone, total_cells, ht, hr]
  · intro h
    simp [progressPct, h]
  · intro h
    simp [progressPct, h]
  · intro h
    simp [progressLabel, h]
  · intro h0 hge
    rw [progressLabel, if_neg (by omega), if_pos (by omega)]
  · intro h0 hlt
    rw [progressLabel, if_neg (by omega), if_neg (by omega)]

/-- Witness for C7 after one Step from the initial state: 21 data cells,
1 revealed, 4 percent, label "1 / 21 cells"; and after Solve: complete. -/
theorem progress_report_witness :
    total_cells (on_step initState) = 21 ∧
    progressDone (on_step initState) = 1 ∧
    progressPct (on_step initState) = 4 ∧
    progressLabel (on_step initState) = "1 / 21 cells" ∧
    progressDone (on_solve initState) = total_cells (on_solve initState) ∧
    progressLabel (on_solve initState) = "✓ Complete" := by
  have h1 := progress_report (on_step initState) 6 1 [2, 3, 4] [3, 4, 5]
  have h2 := progress_report (on_solve initState) 6 1 [2, 3, 4] [3, 4, 5]
  have htot : total_cells (on_step initState) = 21 := by
    rw [h1.1 rfl (by decide)]
    decide
  refine ⟨htot, h1.2.2.1 rfl, ?_, ?_, h2.2.1 rfl, ?_⟩
  · rw [h1.2.2.2.2.1 (by omega), h1.2.2.1 rfl, htot]
  · rw [h1.2.2.2.2.2.2.2.2 (by omega) (by rw [h1.2.2.1 rfl, htot]; omega),
      h1.2.2.1 rfl, htot]
    decide
  · have htot2 : total_cells (on_solve initState) = 21 := by
      rw [h2.1 rfl (by decide)]
      decide
    exact h2.2.2.2.2.2.2.2.1 (by omega) (by rw [h2.2.1 rfl])

/-- The row-major linear index determines the data cell: two data cells
(rows ≥ 1, columns below `n_cols`) with the same linear index coincide. -/
theorem linear_index_inj (n_cols i c i' c' : Nat)
    (hi : 1 ≤ i) (hi' : 1 ≤ i') (hc : c < n_cols) (hc' : c' < n_cols)
    (h : (i - 1) * n_cols + c = (i' - 1) * n_cols + c') : i = i' ∧ c = c' := by
  have key : ∀ a b x y : Nat, x < n_cols → y < n_cols →
      a * n_cols + x = b * n_cols + y → a = b := by
    intro a b x y hx hy hab
    rcases Nat.lt_trichotomy a b with hlt | heq | hgt
    · exfalso
      have hs1 : (a + 1) * n_cols = a * n_cols + n_cols := Nat.succ_mul a n_cols
      have hs2 : (a + 1) * n_cols ≤ b * n_cols := Nat.mul_le_mul_right _ hlt
      omega
    · exact heq
    · exfalso
      have hs1 : (b + 1) * n_cols = b * n_cols + n_cols := Nat.succ_mul b n_cols
      have hs2 : (b + 1) * n_cols ≤ a * n_cols := Nat.mul_le_mul_right _ hgt
      omega
  have heq := key (i - 1) (i' - 1) c c' hc hc' h
  refine ⟨by omega, ?_⟩
  rw [heq] at h
  exact Nat.add_left_cancel h

/-- C5: a data cell is visible iff all cells are revealed or its linear index
is below the reveal counter; a hidden cell renders the empty placeholder;
while `r ≥ 1` cells are revealed the unique data cell whose linear index is
`r - 1` is exactly the one classified active; with everything revealed no
cell is active; and row-0 cells are always shown. -/
theorem cell_visibility_active (table : List (List Nat)) (ws bs : List Nat)
    (r i c i' c' n_cols : Nat) :
    (is_visible none i c n_cols = true) ∧
    (is_visible (some r) i c n_cols = true ↔ (i - 1) * n_cols + c < r) ∧
    (is_visible (some r) i c n_cols = false →
      renderCell table (some r) n_cols i c = "") ∧
    (1 ≤ r →
      (classifyCell table ws bs (some r) n_cols i c = CellClass.active ↔
        (i - 1) * n_cols + c = r - 1)) ∧
    (classifyCell table ws bs none n_cols i c ≠ CellClass.active) ∧
    (1 ≤ i → 1 ≤ i' → c < n_cols → c' < n_cols →
      (i - 1) * n_cols + c = (i' - 1) * n_cols + c' → i = i' ∧ c = c') ∧
    classifyRow0Cell ≠ CellClass.hidden ∧ renderRow0Cell = "0" := by
  refine ⟨rfl, by simp [is_visible], ?_, ?_, ?_,
    linear_index_inj n_cols i c i' c', by decide, rfl⟩
  · intro h
    simp [renderCell, h]
  · intro hr
    have hal : active_linear (some r) = some (r - 1) := by simp [active_linear, hr]
    constructor
    · intro hcl
      unfold classifyCell at hcl
      by_cases h1 : is_visible (some r) i c n_cols = true
      · rw [if_neg (by simp [h1])] at hcl
        by_cases h2 : active_linear (some r) = some ((i - 1) * n_cols + c)
        · rw [hal] at h2
          injection h2 with h2
          omega
        · rw [if_neg h2] at hcl
          split_ifs at hcl
      · rw [if_pos h1] at hcl
        simp at hcl
    · intro heq
      have hvis : is_visible (some r) i c n_cols = true := by
        simp [is_visible]
        omega
      unfold classifyCell
      rw [if_neg (by simp [hvis]), if_pos (by rw [hal, heq])]
  · simp only [classifyCell, is_visible, active_linear, Option.none_bind]
    split_ifs <;> simp_all

/-- Witness for C5 on the concrete table with 5 cells revealed: cell (1,4)
(linear index 4 = 5-1) is the active one, cell (2,3) (linear index 10) is
hidden and renders empty, and nothing is active once everything is revealed. -/
theorem cell_visibility_active_witness :
    classifyCell (knapsack_table 6 [2, 3, 4] [3, 4, 5]) [2, 3, 4] [3, 4, 5] (some 5) 7 1 4 =
      CellClass.active ∧
    renderCell (knapsack_table 6 [2, 3, 4] [3, 4, 5]) (some 5) 7 2 3 = "" ∧
    classifyCell (knapsack_table 6 [2, 3, 4] [3, 4, 5]) [2, 3, 4] [3, 4, 5] none 7 1 4 ≠
      CellClass.active := by
  have h1 := cell_visibility_active (knapsack_table 6 [2, 3, 4] [3, 4, 5])
    [2, 3, 4] [3, 4, 5] 5 1 4 1 4 7
  have h2 := cell_visibility_active (knapsack_table 6 [2, 3, 4] [3, 4, 5])
    [2, 3, 4] [3, 4, 5] 5 2 3 2 3 7
  exact ⟨(h1.2.2.2.1 (by decide)).mpr (by decide), h2.2.2.1 (by decide), h1.2.2.2.2.1⟩

/-- C6: a visible, non-active data cell is classified took iff the item fits
(`weights[i-1] ≤ c`), the cell's value equals the take-value
`table[i-1][c - weights[i-1]] + benefits[i-1]`, and it strictly exceeds the
skip-value `table[i-1][c]` (so a tie is classified normal); the precedence is
hidden, then active, then took, then normal, and exactly one applies. -/
theorem took_classification (table : List (List Nat)) (ws bs : List Nat)
    (rev : Option Nat) (n_cols i c : Nat) :
    (is_visible rev i c n_cols = false →
      classifyCell table ws bs rev n_cols i c = CellClass.hidden) ∧
    (is_visible rev i c n_cols = true →
      active_linear rev = some ((i - 1) * n_cols + c) →
      classifyCell table ws bs rev n_cols i c = CellClass.active) ∧
    (is_visible rev i c n_cols = true →
      active_linear rev ≠ some ((i - 1) * n_cols + c) →
      (classifyCell table ws bs rev n_cols i c = CellClass.took ↔
        (ws.getD (i - 1) 0 ≤ c ∧
          cell table i c = cell table (i - 1) (c - ws.getD (i - 1) 0) + bs.getD (i - 1) 0 ∧
          cell table (i - 1) c < cell table i c))) ∧
    (is_visible rev i c n_cols = true →
      active_linear rev ≠ some ((i - 1) * n_cols + c) →
      cell table (i - 1) c = cell table i c →
      classifyCell table ws bs rev n_cols i c ≠ CellClass.took) ∧
    (is_visible rev i c n_cols = true →
      active_linear rev ≠ some ((i - 1) * n_cols + c) →
      ¬(ws.getD (i - 1) 0 ≤ c ∧
          cell table i c = cell table (i - 1) (c - ws.getD (i - 1) 0) + bs.getD (i - 1) 0 ∧
          cell table (i - 1) c < cell table i c) →
      classifyCell table ws bs rev n_cols i c = CellClass.normal) := by
  have hbool : is_visible rev i c n_cols = true →
      ((took_item table ws bs rev n_cols i c = true) ↔
        (ws.getD (i - 1) 0 ≤ c ∧
          cell table i c = cell table (i - 1) (c - ws.getD (i - 1) 0) + bs.getD (i - 1) 0 ∧
          cell table (i - 1) c < cell table i c)) := by
    intro hvis
    simp only [took_item, hvis, Bool.true_and, Bool.and_eq_true, decide_eq_true_eq, and_assoc]
  have htook : ∀ (hvis : is_visible rev i c n_cols = true),
      active_linear rev ≠ some ((i - 1) * n_cols + c) →
      (classifyCell table ws bs rev n_cols i c = CellClass.took ↔
        (ws.getD (i - 1) 0 ≤ c ∧
          cell table i c = cell table (i - 1) (c - ws.getD (i - 1) 0) + bs.getD (i - 1) 0 ∧
          cell table (i - 1) c < cell table i c)) := by
    intro hvis hna
    unfold classifyCell
    rw [if_neg (by simp [hvis]), if_neg hna]
    constructor
    · intro h
      split_ifs at h with ht
      exact (hbool hvis).mp ht
    · intro hcond
      rw [if_pos ((hbool hvis).mpr hcond)]
  refine ⟨?_, ?_, htook, ?_, ?_⟩
  · intro h
    unfold classifyCell
    rw [if_pos (by simp [h])]
  · intro hvis hact
    unfold classifyCell
    rw [if_neg (by simp [hvis]), if_pos hact]
  · intro hvis hna htie hcl
    obtain ⟨-, -, hlt⟩ := (htook hvis hna).mp hcl
    omega
  · intro hvis hna hncond
    unfold classifyCell
    rw [if_neg (by simp [hvis]), if_neg hna,
      if_neg (fun ht => hncond ((hbool hvis).mp ht))]

/-- Witness for C6 on the fully revealed concrete table: cell (2,5) strictly
improves by taking item 2 (value 7 = 3 + 4 > 3) and is classified took, while
cell (1,1) (item does not fit) is classified normal. -/
theorem took_classification_witness :
    classifyCell (knapsack_table 6 [2, 3, 4] [3, 4, 5]) [2, 3, 4] [3, 4, 5] none 7 2 5 =
      CellClass.took ∧
    classifyCell (knapsack_table 6 [2, 3, 4] [3, 4, 5]) [2, 3, 4] [3, 4, 5] none 7 1 1 =
      CellClass.normal := by
  have h1 := took_classification (knapsack_table 6 [2, 3, 4] [3, 4, 5])
    [2, 3, 4] [3, 4, 5] none 7 2 5
  have h2 := took_classification (knapsack_table 6 [2, 3, 4] [3, 4, 5])
    [2, 3, 4] [3, 4, 5] none 7 1 1
  exact ⟨(h1.2.2.1 rfl (by decide)).mpr (by decide),
    h2.2.2.2.2 rfl (by decide) (by decide)⟩

/-- C8 counterexample: with the raw weights input `""` (containing no
weights), Solve reports the token-parse error naming the empty token — not
the EmptyWeights error "Enter at least one weight." — and computes no table.
(Splitting on `,` always yields at least one token, so `parse_list` fails on
the empty token before the emptiness check can ever fire.) -/
theorem empty_weights_counterexample :
    (on_solve { initState with weightsInput := "" }).errorMsg =
      some "Weights: \x27\x27 is not a valid positive integer" ∧
    (on_solve { initState with weightsInput := "" }).errorMsg ≠
      some "Enter at least one weight." ∧
    (on_solve { initState with weightsInput := "" }).dpTable = none :=
  ⟨by decide, by decide, by decide⟩

/-- C8 as amended: when the validated weights input is the empty string,
Solve and Step fail with the invalid-token error naming the (empty) token —
`Weights: '' is not a valid positive integer` — rather than the unreachable
EmptyWeights message, no table is computed, and the reveal state is left
untouched. -/
theorem empty_weights_token_error :
    (on_solve { initState with weightsInput := "" }).errorMsg =
      some ("Weights: " ++ tokenError []) ∧
    (on_solve { initState with weightsInput := "" }).dpTable = none ∧
    (on_solve { initState with weightsInput := "" }).revealed = some 0 ∧
    (on_step { initState with weightsInput := "" }).errorMsg =
      some ("Weights: " ++ tokenError []) ∧
    (on_step { initState with weightsInput := "" }).dpTable = none ∧
    (on_step { initState with weightsInput := "" }).revealed = some 0 :=
  ⟨by decide, by decide, by decide, by decide, by decide, by decide⟩
